import Mathlib

/-!
Verification of the service-control layer of the holler-server-monitoring-agent
repository (`src/services/systemctl.js`, the generic control route of
`src/routes/control.js`, and the static services configuration of
`src/config/agent.js`).

The JavaScript is embedded shallowly:
* the static services configuration becomes `agentConfigServices`;
* `isServiceAllowed` and `resolveServiceName` become pure Lean functions on
  an association-list model of the alias object (JavaScript object keys are
  unique, which the general theorems record as a `Nodup` hypothesis);
* `executeSystemCtl` becomes a function from the inputs and an oracle for the
  child-process result to a `SystemCtlOutcome` recording, in order, the
  validation steps performed, the audit events written via
  `logger.logSystemEvent`, the shell commands handed to `execAsync`, and the
  returned value or thrown error (wall-clock fields such as `duration` and
  `timestamp`, and the random fallback for `requestId`, are not modelled);
* the generic route `POST /service/:action/:service` becomes
  `serviceControlRoute`, producing the HTTP status and the JSON fields the
  claims mention.
-/

/-- Services section of `agent.js`: the `controllable` allow-list and the
`aliases` object, the latter modelled as an association list in declaration
order. -/
structure AgentServicesConfig where
  controllable : List String
  aliases : List (String × List String)
deriving Repr, DecidableEq

/-- The shipped configuration (`agentConfig.services` in `src/config/agent.js`). -/
def agentConfigServices : AgentServicesConfig :=
  { controllable :=
      ["nginx", "apache2", "mysql", "mariadb", "php8.1-fpm", "php8.2-fpm",
       "php8.3-fpm", "redis-server", "memcached", "supervisor"],
    aliases :=
      [("php-fpm", ["php8.1-fpm", "php8.2-fpm", "php8.3-fpm"]),
       ("database", ["mysql", "mariadb"]),
       ("web", ["nginx", "apache2"]),
       ("cache", ["redis-server", "memcached"])] }

/-- `SystemCtlService.isServiceAllowed`: direct membership in the allow-list,
or an alias entry with the same key one of whose candidate services is in the
allow-list (the `for … of Object.entries` loop becomes `List.any`). -/
def isServiceAllowed (cfg : AgentServicesConfig) (serviceName : String) : Bool :=
  cfg.controllable.contains serviceName ||
    cfg.aliases.any (fun p =>
      p.1 == serviceName && p.2.any (fun s => cfg.controllable.contains s))

/-- `SystemCtlService.resolveServiceName`: if the alias object has an entry
for `serviceName` (`this.serviceAliases[serviceName]` on a plain object: the
unique entry with that key, modelled with `List.find?`), return the first
candidate that is in the allow-list; in every other case return `serviceName`
unchanged. -/
def resolveServiceName (cfg : AgentServicesConfig) (serviceName : String) : String :=
  match cfg.aliases.find? (fun p => p.1 == serviceName) with
  | some (_, services) =>
    match services.find? (fun s => cfg.controllable.contains s) with
    | some service => service
    | none => serviceName
  | none => serviceName

/-- The `allowedActions` local of `executeSystemCtl`. -/
def allowedActions : List String :=
  ["start", "stop", "restart", "reload", "status", "is-active", "is-enabled"]

/-- JavaScript `String.prototype.trim`: drop leading and trailing whitespace
(defined by structural recursion over the character list so that it evaluates
inside the kernel). -/
def strTrim (s : String) : String :=
  ⟨((s.data.dropWhile Char.isWhitespace).reverse.dropWhile Char.isWhitespace).reverse⟩

/-- Helper for `strIncludes`: does `pat` occur as a contiguous run inside
`s`? -/
def containsSub (s pat : List Char) : Bool :=
  match s with
  | [] => pat.isEmpty
  | _ :: rest => pat.isPrefixOf s || containsSub rest pat

/-- JavaScript `String.prototype.includes`: substring containment. -/
def strIncludes (s pat : String) : Bool :=
  containsSub s.data pat.data

/-- Result of one `execAsync` call: either resolved with captured stdout and
stderr, or rejected (non-zero exit, timeout, …) with an error message. -/
inductive ExecResult where
  | ok (stdout stderr : String)
  | err (message : String)
deriving Repr, DecidableEq

/-- One `logger.logSystemEvent` record written by `executeSystemCtl`. -/
inductive AuditEvent where
  | systemctlSuccess (requestId action service resolvedService : String)
  | systemctlFailed (requestId action service errorMessage : String)
deriving Repr, DecidableEq

/-- The operations `executeSystemCtl` performs, in program order: the
allow-list check, the alias resolution, the action check, and the hand-off of
a command string to `execAsync`. -/
inductive ExecStep where
  | checkServiceAllowed (serviceName : String)
  | resolveService (serviceName : String)
  | checkAction (action : String)
  | execCommand (command : String)
deriving Repr, DecidableEq

/-- The object `executeSystemCtl` returns on success (the wall-clock
`duration` and `timestamp` fields are not modelled). -/
structure ControlResult where
  success : Bool
  action : String
  service : String
  resolvedService : String
  output : String
  warnings : Option String
deriving Repr, DecidableEq

/-- Everything observable about one `executeSystemCtl` call: the validation
steps in order, the audit events written, the commands executed, and the
returned value or thrown error message. -/
instance : DecidableEq (Except String ControlResult)
  | .ok x, .ok y => decidable_of_iff (x = y) (by simp)
  | .error x, .error y => decidable_of_iff (x = y) (by simp)
  | .ok _, .error _ => .isFalse (by simp)
  | .error _, .ok _ => .isFalse (by simp)

structure SystemCtlOutcome where
  steps : List ExecStep
  auditEvents : List AuditEvent
  executedCommands : List String
  result : Except String ControlResult
deriving Repr, DecidableEq

/-- `SystemCtlService.executeSystemCtl`.  The body's try/catch validates the
service against the allow-list, resolves the alias, validates the action,
builds `sudo systemctl <action> <resolvedService>` and runs it; any throw is
caught once, one `SYSTEMCTL_FAILED` audit event is written and the error is
rethrown, while success writes one `SYSTEMCTL_SUCCESS` audit event.  `exec`
is the oracle for the child-process result of a given command string. -/
def executeSystemCtl (cfg : AgentServicesConfig) (action serviceName requestId : String)
    (exec : String → ExecResult) : SystemCtlOutcome :=
  if !isServiceAllowed cfg serviceName then
    { steps := [.checkServiceAllowed serviceName],
      auditEvents := [.systemctlFailed requestId action serviceName
        ("Service '" ++ serviceName ++ "' is not allowed to be controlled")],
      executedCommands := [],
      result := .error ("Service '" ++ serviceName ++ "' is not allowed to be controlled") }
  else
    if !allowedActions.contains action then
      { steps := [.checkServiceAllowed serviceName, .resolveService serviceName,
                  .checkAction action],
        auditEvents := [.systemctlFailed requestId action serviceName
          ("Action '" ++ action ++ "' is not allowed")],
        executedCommands := [],
        result := .error ("Action '" ++ action ++ "' is not allowed") }
    else
      match exec ("sudo systemctl " ++ action ++ " " ++ resolveServiceName cfg serviceName) with
      | .ok stdout stderr =>
        { steps := [.checkServiceAllowed serviceName, .resolveService serviceName,
                    .checkAction action, .execCommand
                      ("sudo systemctl " ++ action ++ " " ++ resolveServiceName cfg serviceName)],
          auditEvents := [.systemctlSuccess requestId action serviceName
            (resolveServiceName cfg serviceName)],
          executedCommands :=
            ["sudo systemctl " ++ action ++ " " ++ resolveServiceName cfg serviceName],
          result := .ok
            { success := true, action := action, service := serviceName,
              resolvedService := resolveServiceName cfg serviceName, output := strTrim stdout,
              warnings := if strTrim stderr == "" then none else some (strTrim stderr) } }
      | .err message =>
        { steps := [.checkServiceAllowed serviceName, .resolveService serviceName,
                    .checkAction action, .execCommand
                      ("sudo systemctl " ++ action ++ " " ++ resolveServiceName cfg serviceName)],
          auditEvents := [.systemctlFailed requestId action serviceName message],
          executedCommands :=
            ["sudo systemctl " ++ action ++ " " ++ resolveServiceName cfg serviceName],
          result := .error message }

/-- The `allowedActions` local of the generic route handler
`POST /service/:action/:service` in `control.js` (a strict subset of the
service layer's seven actions). -/
def routeAllowedActions : List String := ["start", "stop", "restart", "reload"]

/-- The JSON fields of the route's response that the claims mention, plus the
HTTP status code. -/
structure RouteResponse where
  status : Nat
  success : Bool
  error : Option String
  message : Option String
deriving Repr, DecidableEq

/-- Observable outcome of one request to `POST /service/:action/:service`. -/
structure RouteOutcome where
  response : RouteResponse
  auditEvents : List AuditEvent
  executedCommands : List String
deriving Repr, DecidableEq

/-- The generic route handler `POST /service/:action/:service`:
reject actions outside its own four-action list with a 400 (before calling
the service layer); otherwise dispatch to the corresponding
`SystemCtlService` wrapper (all of which call `executeSystemCtl` with the
same arguments); on success answer 200, and in the catch block answer 500
with `error: Failed to <action> service <service>` and
`message: error.message`. -/
def serviceControlRoute (cfg : AgentServicesConfig) (action service requestId : String)
    (exec : String → ExecResult) : RouteOutcome :=
  if !routeAllowedActions.contains action then
    { response :=
        { status := 400, success := false, error := some "Invalid action",
          message := some "Action must be one of: start, stop, restart, reload" },
      auditEvents := [], executedCommands := [] }
  else
    let out := executeSystemCtl cfg action service requestId exec
    match out.result with
    | .ok _ =>
      { response :=
          { status := 200, success := true, error := none,
            message := some ("Service " ++ service ++ " " ++ action ++
              " completed successfully") },
        auditEvents := out.auditEvents, executedCommands := out.executedCommands }
    | .error msg =>
      { response :=
          { status := 500, success := false,
            error := some ("Failed to " ++ action ++ " service " ++ service),
            message := some msg },
        auditEvents := out.auditEvents, executedCommands := out.executedCommands }

/-- Failure modes the specification prescribes for `resolve`. -/
inductive ResolveError where
  | unknownService
  | unresolvableAlias
deriving Repr, DecidableEq

/-- Modelled from the spec: the specification's `resolve(name)` contract
(section 4.1), stated for comparison with the code's `resolveServiceName`.
A direct allowed service is returned unchanged; an alias returns the first
allowed candidate in declared order, failing with `UnresolvableAliasError`
when no candidate is allowed; any other name fails with
`UnknownServiceError`. -/
def resolveSpec (cfg : AgentServicesConfig) (name : String) :
    Except ResolveError String :=
  if cfg.controllable.contains name then .ok name
  else
    match cfg.aliases.find? (fun p => p.1 == name) with
    | some (_, candidates) =>
      match candidates.find? (fun x => cfg.controllable.contains x) with
      | some c => .ok c
      | none => .error .unresolvableAlias
    | none => .error .unknownService

/-- Parsed block that `getServiceStatus` derives from the captured output. -/
structure ParsedStatus where
  active : Bool
  enabled : Bool
  status : String
deriving Repr, DecidableEq

/-- The value `getServiceStatus` returns (the fields of the spread
`...result` the claims mention, plus the `parsed` block; on the error path
`success:false`, the error message, and the fallback `parsed` block). -/
structure ServiceStatusResult where
  success : Bool
  service : String
  output : Option String
  errorMessage : Option String
  parsed : ParsedStatus
deriving Repr, DecidableEq

/-- `SystemCtlService.getServiceStatus`: run `executeSystemCtl('status', …)`,
parse the captured output with `String.prototype.includes`, and on any thrown
error return `success:false` with the fixed fallback `parsed` block instead
of propagating the exception. -/
def getServiceStatus (cfg : AgentServicesConfig) (serviceName requestId : String)
    (exec : String → ExecResult) : ServiceStatusResult :=
  match (executeSystemCtl cfg "status" serviceName requestId exec).result with
  | .ok r =>
    { success := true, service := serviceName, output := some r.output,
      errorMessage := none,
      parsed :=
        { active := strIncludes r.output "Active: active",
          enabled := strIncludes r.output "Loaded:" && strIncludes r.output "enabled",
          status := if strIncludes r.output "Active: active" then "active"
            else "inactive" } }
  | .error msg =>
    { success := false, service := serviceName, output := none,
      errorMessage := some msg,
      parsed := { active := false, enabled := false, status := "not-found" } }

/-- Alias aggregation entry built by `getAllServicesStatus`. -/
structure AliasStatusInfo where
  services : List String
  activeCount : Nat
  active : Bool
  activeServices : List String
deriving Repr, DecidableEq

/-- The value `getAllServicesStatus` returns (without the timestamp). -/
structure AllServicesStatus where
  services : List (String × ParsedStatus)
  aliases : List (String × AliasStatusInfo)
  requestId : String
deriving Repr, DecidableEq

/-- `SystemCtlService.getAllServicesStatus`: collect `parsed` for every
service of the allow-list (keyed per service, with the derived per-service
request id), then aggregate each alias from the collected results.  The
source's `try/catch` around `getServiceStatus` is dead code — that function
never throws — so the `status:'error'` branch is unreachable and not
modelled. -/
def getAllServicesStatus (cfg : AgentServicesConfig) (requestId : String)
    (exec : String → ExecResult) : AllServicesStatus :=
  let results := cfg.controllable.map (fun s =>
    (s, (getServiceStatus cfg s (requestId ++ "-" ++ s) exec).parsed))
  { services := results,
    aliases := cfg.aliases.map (fun pr =>
      let activeServices := pr.2.filter (fun s =>
        ((results.find? (fun p => p.1 == s)).map (fun p => p.2.active)).getD false)
      (pr.1,
        { services := pr.2,
          activeCount := activeServices.length,
          active := decide (0 < activeServices.length),
          activeServices := activeServices })),
    requestId := requestId }

/-- C8 sanity check on the shipped configuration. -/
example : isServiceAllowed agentConfigServices "nginx" = true := by decide

example : isServiceAllowed agentConfigServices "database" = true := by decide

example : isServiceAllowed agentConfigServices "postgresql" = false := by decide

example : resolveServiceName agentConfigServices "database" = "mysql" := by decide

/-- Claim C8: `isServiceAllowed` returns true exactly on direct allow-list
members and on alias keys having at least one allow-listed candidate, and
false on every other string. -/
theorem isServiceAllowed_iff_direct_or_alias (cfg : AgentServicesConfig)
    (name : String) :
    isServiceAllowed cfg name = true ↔
      (name ∈ cfg.controllable ∨
        ∃ p ∈ cfg.aliases, p.1 = name ∧ ∃ c ∈ p.2, c ∈ cfg.controllable) := by
  simp [isServiceAllowed, List.contains, List.any_eq_true, List.elem_iff]

/-- Internal form of the `isServiceAllowed` characterisation, available to
the proofs of the other theorems. -/
lemma isServiceAllowed_eq_true (cfg : AgentServicesConfig) (name : String) :
    isServiceAllowed cfg name = true ↔
      (name ∈ cfg.controllable ∨
        ∃ p ∈ cfg.aliases, p.1 = name ∧ ∃ c ∈ p.2, c ∈ cfg.controllable) := by
  simp [isServiceAllowed, List.contains, List.any_eq_true, List.elem_iff]

/-- Equation lemma: no alias entry means the name is returned unchanged. -/
lemma resolveServiceName_eq_none (cfg : AgentServicesConfig) (s : String)
    (hfind : cfg.aliases.find? (fun p => p.1 == s) = none) :
    resolveServiceName cfg s = s := by
  unfold resolveServiceName
  rw [hfind]

/-- Equation lemma: an alias entry with a first allowed candidate resolves to
that candidate. -/
lemma resolveServiceName_eq_alias_some (cfg : AgentServicesConfig)
    (s k : String) (cands : List String) (c : String)
    (hfind : cfg.aliases.find? (fun p => p.1 == s) = some (k, cands))
    (hf2 : cands.find? (fun x => cfg.controllable.contains x) = some c) :
    resolveServiceName cfg s = c := by
  unfold resolveServiceName
  rw [hfind]
  simp only [hf2]

/-- Equation lemma: an alias entry none of whose candidates is allowed leaves
the name unchanged. -/
lemma resolveServiceName_eq_alias_none (cfg : AgentServicesConfig)
    (s k : String) (cands : List String)
    (hfind : cfg.aliases.find? (fun p => p.1 == s) = some (k, cands))
    (hf2 : cands.find? (fun x => cfg.controllable.contains x) = none) :
    resolveServiceName cfg s = s := by
  unfold resolveServiceName
  rw [hfind]
  simp only [hf2]

/-- When the alias keys are pairwise distinct (as JavaScript object keys are)
and some entry with key `s` has a candidate satisfying `q`, then the first
entry with key `s` is that entry and it has a candidate satisfying `q`. -/
lemma find?_alias_of_any (l : List (String × List String)) (q : String → Bool)
    (s : String) (hnd : (l.map Prod.fst).Nodup)
    (h : l.any (fun p => p.1 == s && p.2.any q) = true) :
    ∃ cands, l.find? (fun p => p.1 == s) = some (s, cands) ∧ cands.any q = true := by
  induction l with
  | nil => simp at h
  | cons hd tl ih =>
    obtain ⟨k, cands⟩ := hd
    rw [List.map_cons] at hnd
    rcases List.nodup_cons.mp hnd with ⟨hkey, hnd'⟩
    by_cases hk : k = s
    · subst hk
      refine ⟨cands, ?_, ?_⟩
      · rw [List.find?_cons_of_pos _ (by simp)]
      · rw [List.any_cons] at h
        rcases Bool.or_eq_true_iff.mp h with hhd | htl
        · have hhd' : (k == k && cands.any q) = true := hhd
          simpa using hhd'
        · exfalso
          rcases List.any_eq_true.mp htl with ⟨p, hptl, hpq⟩
          have hp1 : p.1 = k := by
            have := (Bool.and_eq_true_iff.mp hpq).1
            exact beq_iff_eq.mp this
          have hm : p.1 ∈ tl.map Prod.fst := List.mem_map_of_mem Prod.fst hptl
          rw [hp1] at hm
          exact hkey hm
    · have hhd : (k == s) = false := beq_eq_false_iff_ne.mpr hk
      have h' : tl.any (fun p => p.1 == s && p.2.any q) = true := by
        rw [List.any_cons] at h
        rcases Bool.or_eq_true_iff.mp h with hhead | htl
        · have hhead' : (k == s && cands.any q) = true := hhead
          rw [hhd] at hhead'
          simp at hhead'
        · exact htl
      rcases ih hnd' h' with ⟨cands', hfind, hq⟩
      exact ⟨cands', by rw [List.find?_cons_of_neg _ (by simp [hk]), hfind], hq⟩

/-- Whenever the allow-list check passes and alias keys are pairwise
distinct, the resolved service name is a member of the allow-list. -/
lemma resolve_mem_controllable_of_allowed (cfg : AgentServicesConfig)
    (hnd : (cfg.aliases.map Prod.fst).Nodup) (s : String)
    (hs : isServiceAllowed cfg s = true) :
    cfg.controllable.contains (resolveServiceName cfg s) = true := by
  unfold isServiceAllowed at hs
  rcases Bool.or_eq_true_iff.mp hs with hdir | hali
  · cases hfind : cfg.aliases.find? (fun p => p.1 == s) with
    | none =>
      rw [resolveServiceName_eq_none cfg s hfind]
      exact hdir
    | some pr =>
      obtain ⟨k, cands⟩ := pr
      cases hf2 : cands.find? (fun x => cfg.controllable.contains x) with
      | none =>
        rw [resolveServiceName_eq_alias_none cfg s k cands hfind hf2]
        exact hdir
      | some c =>
        rw [resolveServiceName_eq_alias_some cfg s k cands c hfind hf2]
        exact List.find?_some hf2
  · rcases find?_alias_of_any cfg.aliases (fun c => cfg.controllable.contains c) s hnd hali
      with ⟨cands, hfind, hq⟩
    rcases List.any_eq_true.mp hq with ⟨c, hc, hcq⟩
    have hsome : (cands.find? (fun x => cfg.controllable.contains x)).isSome := by
      rw [List.find?_isSome]
      exact ⟨c, hc, hcq⟩
    rcases Option.isSome_iff_exists.mp hsome with ⟨c₀, hc₀⟩
    rw [resolveServiceName_eq_alias_some cfg s s cands c₀ hfind hc₀]
    exact List.find?_some hc₀

/-- Claim C1: if `executeSystemCtl` (with the shipped configuration) hands a
command to `execAsync`, that command is exactly
`sudo systemctl <action> <resolvedService>`, the resolved service is a member
of the static allow-list, and the raw user input appears as the substituted
name only when it is itself an allow-list member. -/
theorem executeSystemCtl_command_from_allowlist
    (action serviceName requestId : String) (exec : String → ExecResult)
    (cmd : String)
    (hcmd : cmd ∈ (executeSystemCtl agentConfigServices action serviceName
      requestId exec).executedCommands) :
    cmd = "sudo systemctl " ++ action ++ " " ++
        resolveServiceName agentConfigServices serviceName ∧
      resolveServiceName agentConfigServices serviceName ∈
        agentConfigServices.controllable ∧
      (resolveServiceName agentConfigServices serviceName = serviceName →
        serviceName ∈ agentConfigServices.controllable) := by
  have hnd : (agentConfigServices.aliases.map Prod.fst).Nodup := by decide
  unfold executeSystemCtl at hcmd
  split at hcmd
  · simp at hcmd
  · rename_i hallow
    have hallow' : isServiceAllowed agentConfigServices serviceName = true := by
      simpa using hallow
    have hmem : resolveServiceName agentConfigServices serviceName ∈
        agentConfigServices.controllable := by
      have := resolve_mem_controllable_of_allowed agentConfigServices hnd
        serviceName hallow'
      simpa [List.contains, List.elem_iff] using this
    split at hcmd
    · simp at hcmd
    · split at hcmd <;> simp at hcmd <;> exact ⟨hcmd, hmem, fun he => he ▸ hmem⟩

/-- Witness for C1 at a concrete input: the restart of `nginx`. -/
theorem executeSystemCtl_command_from_allowlist_witness :
    "sudo systemctl restart nginx" = "sudo systemctl " ++ "restart" ++ " " ++
        resolveServiceName agentConfigServices "nginx" ∧
      resolveServiceName agentConfigServices "nginx" ∈
        agentConfigServices.controllable ∧
      (resolveServiceName agentConfigServices "nginx" = "nginx" →
        "nginx" ∈ agentConfigServices.controllable) :=
  executeSystemCtl_command_from_allowlist "restart" "nginx" "req"
    (fun _ => ExecResult.ok "" "") "sudo systemctl restart nginx" (by decide)

/-- Claim C2: for a target that is neither a direct allow-list member nor an
alias with an allowed candidate, `executeSystemCtl` stops at the allow-list
check and throws; no command is built or handed to `execAsync`. -/
theorem executeSystemCtl_denied_no_subprocess (cfg : AgentServicesConfig)
    (action serviceName requestId : String) (exec : String → ExecResult)
    (h : ¬(serviceName ∈ cfg.controllable ∨
      ∃ p ∈ cfg.aliases, p.1 = serviceName ∧ ∃ c ∈ p.2, c ∈ cfg.controllable)) :
    (executeSystemCtl cfg action serviceName requestId exec).executedCommands = [] ∧
      (executeSystemCtl cfg action serviceName requestId exec).steps =
        [ExecStep.checkServiceAllowed serviceName] ∧
      (executeSystemCtl cfg action serviceName requestId exec).result =
        Except.error ("Service '" ++ serviceName ++ "' is not allowed to be controlled") := by
  have hs : isServiceAllowed cfg serviceName = false := by
    cases hb : isServiceAllowed cfg serviceName with
    | false => rfl
    | true => exact absurd ((isServiceAllowed_eq_true cfg serviceName).mp hb) h
  unfold executeSystemCtl
  rw [hs]
  exact ⟨rfl, rfl, rfl⟩

/-- Witness for C2 at a concrete input: `postgresql` is not allow-listed. -/
theorem executeSystemCtl_denied_no_subprocess_witness :
    (¬("postgresql" ∈ agentConfigServices.controllable ∨
      ∃ p ∈ agentConfigServices.aliases, p.1 = "postgresql" ∧
        ∃ c ∈ p.2, c ∈ agentConfigServices.controllable)) ∧
    (executeSystemCtl agentConfigServices "restart" "postgresql" "req"
      (fun _ => ExecResult.ok "" "")).executedCommands = [] ∧
    (executeSystemCtl agentConfigServices "restart" "postgresql" "req"
      (fun _ => ExecResult.ok "" "")).steps =
        [ExecStep.checkServiceAllowed "postgresql"] ∧
    (executeSystemCtl agentConfigServices "restart" "postgresql" "req"
      (fun _ => ExecResult.ok "" "")).result =
        Except.error "Service 'postgresql' is not allowed to be controlled" := by
  have h := executeSystemCtl_denied_no_subprocess agentConfigServices "restart"
    "postgresql" "req" (fun _ => ExecResult.ok "" "") (by decide)
  exact ⟨by decide, h.1, h.2.1, h.2.2⟩

/-- Claim C9: in the shipped configuration the alias `database` maps to
`[mysql, mariadb]`, both candidates are allow-listed, and resolution
deterministically picks the first declared candidate `mysql`. -/
theorem resolve_database_eq_mysql :
    resolveServiceName agentConfigServices "database" = "mysql" ∧
      agentConfigServices.aliases.find? (fun p => p.1 == "database") =
        some ("database", ["mysql", "mariadb"]) ∧
      "mysql" ∈ agentConfigServices.controllable ∧
      "mariadb" ∈ agentConfigServices.controllable ∧
      resolveServiceName agentConfigServices "database" ≠ "mariadb" := by
  refine ⟨by decide, by decide, by decide, by decide, by decide⟩

/-- Helper: every call to `executeSystemCtl` writes exactly one audit event,
whichever branch it takes. -/
lemma executeSystemCtl_audit_length (cfg : AgentServicesConfig)
    (action serviceName requestId : String) (exec : String → ExecResult) :
    (executeSystemCtl cfg action serviceName requestId exec).auditEvents.length = 1 := by
  unfold executeSystemCtl
  split
  · rfl
  · split
    · rfl
    · split <;> rfl

/-- Claim C3 (amended): every call to `executeSystemCtl` writes exactly one
audit event, success or failure, invalid action and disallowed service
included; but a request to the generic route whose action fails the route's
own pre-check never reaches `executeSystemCtl` and writes zero audit
events. -/
theorem control_request_audit_count (cfg : AgentServicesConfig)
    (action serviceName requestId : String) (exec : String → ExecResult) :
    (executeSystemCtl cfg action serviceName requestId exec).auditEvents.length = 1 ∧
      (serviceControlRoute cfg action serviceName requestId exec).auditEvents.length =
        (if routeAllowedActions.contains action then 1 else 0) := by
  refine ⟨executeSystemCtl_audit_length cfg action serviceName requestId exec, ?_⟩
  unfold serviceControlRoute
  dsimp only
  split
  · rename_i h
    have hc : routeAllowedActions.contains action = false := by simpa using h
    rw [hc]
    rfl
  · rename_i h
    have hc : routeAllowedActions.contains action = true := by simpa using h
    rw [hc]
    split <;>
      simpa using executeSystemCtl_audit_length cfg action serviceName requestId exec

/-- Counterexample for C3 as stated: `status` is a member of the
specification's action enum (and of the service layer's `allowedActions`),
yet a request `POST /service/status/nginx` is rejected by the route's own
four-action pre-check and produces zero audit events, not exactly one. -/
theorem route_status_request_zero_audit :
    allowedActions.contains "status" = true ∧
      (serviceControlRoute agentConfigServices "status" "nginx" "req"
        (fun _ => ExecResult.ok "" "")).auditEvents = [] ∧
      (serviceControlRoute agentConfigServices "status" "nginx" "req"
        (fun _ => ExecResult.ok "" "")).auditEvents.length ≠ 1 := by
  refine ⟨by decide, by decide, by decide⟩

/-- Counterexample for C4 as stated: `postgresql` is neither a service nor an
alias, so per the spec `resolve` must fail with `UnknownServiceError`; the
code's `resolveServiceName` does not fail, it returns the name unchanged. -/
theorem resolveServiceName_never_fails_on_unknown :
    resolveServiceName agentConfigServices "postgresql" = "postgresql" ∧
      resolveSpec agentConfigServices "postgresql" =
        Except.error ResolveError.unknownService ∧
      isServiceAllowed agentConfigServices "postgresql" = false := by
  refine ⟨by decide, rfl, by decide⟩

/-- Claim C4 (amended): `resolveServiceName` is total and never fails.  A
name with no alias entry — unknown names and direct services alike — is
returned unchanged; an alias resolves to its first allow-listed candidate,
which is a member of the allow-list; an alias with no allowed candidate is
returned unchanged instead of failing. -/
theorem resolveServiceName_total_behavior (cfg : AgentServicesConfig)
    (name : String) :
    (cfg.aliases.find? (fun p => p.1 == name) = none →
      resolveServiceName cfg name = name) ∧
    (∀ k cands, cfg.aliases.find? (fun p => p.1 == name) = some (k, cands) →
      (cands.find? (fun x => cfg.controllable.contains x) = none →
        resolveServiceName cfg name = name) ∧
      (∀ c, cands.find? (fun x => cfg.controllable.contains x) = some c →
        resolveServiceName cfg name = c ∧ c ∈ cfg.controllable)) := by
  refine ⟨fun h => resolveServiceName_eq_none cfg name h, fun k cands hfind =>
    ⟨fun h2 => resolveServiceName_eq_alias_none cfg name k cands hfind h2,
     fun c hc => ⟨resolveServiceName_eq_alias_some cfg name k cands c hfind hc, ?_⟩⟩⟩
  have := List.find?_some hc
  simpa [List.contains, List.elem_iff] using this

/-- Witness for the amended C4 at concrete inputs: the unknown name
`postgresql` and the alias `php-fpm`. -/
theorem resolveServiceName_total_behavior_witness :
    resolveServiceName agentConfigServices "postgresql" = "postgresql" ∧
      (resolveServiceName agentConfigServices "php-fpm" = "php8.1-fpm" ∧
        "php8.1-fpm" ∈ agentConfigServices.controllable) := by
  refine ⟨(resolveServiceName_total_behavior agentConfigServices "postgresql").1
    (by decide), ?_⟩
  exact ((resolveServiceName_total_behavior agentConfigServices "php-fpm").2
    "php-fpm" ["php8.1-fpm", "php8.2-fpm", "php8.3-fpm"] (by decide)).2
    "php8.1-fpm" (by decide)

/-- Counterexample for C5 as stated: on the invalid action `enable` the trace
begins with the allow-list lookup and the alias resolution; the action check
comes third, so the action is not rejected before the registry is touched. -/
theorem action_check_after_registry_lookup :
    (executeSystemCtl agentConfigServices "enable" "nginx" "req"
      (fun _ => ExecResult.ok "" "")).steps =
      [ExecStep.checkServiceAllowed "nginx", ExecStep.resolveService "nginx",
        ExecStep.checkAction "enable"] ∧
      (executeSystemCtl agentConfigServices "enable" "nginx" "req"
        (fun _ => ExecResult.ok "" "")).steps.head? =
        some (ExecStep.checkServiceAllowed "nginx") ∧
      allowedActions.contains "enable" = false := by
  refine ⟨by decide, by decide, by decide⟩

/-- Claim C5 (amended): an action outside the fixed enum is rejected with
`Action '<action>' is not allowed` and no command is executed, but the
rejection happens after the allow-list check and the alias resolution, not
before them. -/
theorem invalid_action_rejected_after_registry (cfg : AgentServicesConfig)
    (action serviceName requestId : String) (exec : String → ExecResult)
    (hallow : isServiceAllowed cfg serviceName = true)
    (hact : allowedActions.contains action = false) :
    (executeSystemCtl cfg action serviceName requestId exec).result =
        Except.error ("Action '" ++ action ++ "' is not allowed") ∧
      (executeSystemCtl cfg action serviceName requestId exec).executedCommands = [] ∧
      (executeSystemCtl cfg action serviceName requestId exec).steps =
        [ExecStep.checkServiceAllowed serviceName,
          ExecStep.resolveService serviceName, ExecStep.checkAction action] := by
  unfold executeSystemCtl
  rw [hallow, hact]
  exact ⟨rfl, rfl, rfl⟩

/-- Witness for the amended C5 at a concrete input. -/
theorem invalid_action_rejected_after_registry_witness :
    (executeSystemCtl agentConfigServices "enable" "nginx" "req"
        (fun _ => ExecResult.ok "" "")).result =
        Except.error ("Action '" ++ "enable" ++ "' is not allowed") ∧
      (executeSystemCtl agentConfigServices "enable" "nginx" "req"
        (fun _ => ExecResult.ok "" "")).executedCommands = [] ∧
      (executeSystemCtl agentConfigServices "enable" "nginx" "req"
        (fun _ => ExecResult.ok "" "")).steps =
        [ExecStep.checkServiceAllowed "nginx", ExecStep.resolveService "nginx",
          ExecStep.checkAction "enable"] :=
  invalid_action_rejected_after_registry agentConfigServices "enable" "nginx"
    "req" (fun _ => ExecResult.ok "" "") (by decide) (by decide)

/-- Counterexample for C6 as stated: a request for the allow-list-denied
service `postgresql` is answered with HTTP 500, not with the 400/404 the
taxonomy prescribes for an unknown or not-controllable service. -/
theorem route_denied_service_maps_to_500 :
    (serviceControlRoute agentConfigServices "restart" "postgresql" "req"
        (fun _ => ExecResult.ok "" "")).response.status = 500 ∧
      isServiceAllowed agentConfigServices "postgresql" = false := by
  refine ⟨by decide, by decide⟩

/-- Claim C6 (amended): the generic route maps an action outside its own
four-action list to 400, and every error thrown by `executeSystemCtl` —
allow-list denial, invalid service-layer action, and execution failure
alike — to 500; successes map to 200. -/
theorem route_status_mapping (cfg : AgentServicesConfig)
    (action service requestId : String) (exec : String → ExecResult) :
    (serviceControlRoute cfg action service requestId exec).response.status =
      (if routeAllowedActions.contains action then
        (match (executeSystemCtl cfg action service requestId exec).result with
          | Except.ok _ => 200
          | Except.error _ => 500)
      else 400) := by
  unfold serviceControlRoute
  dsimp only
  split
  · rename_i h
    have hc : routeAllowedActions.contains action = false := by simpa using h
    rw [hc]
    rfl
  · rename_i h
    have hc : routeAllowedActions.contains action = true := by simpa using h
    rw [hc]
    cases hres : (executeSystemCtl cfg action service requestId exec).result <;>
      rfl

/-- Counterexample for C7 as stated: the JSON error response for the denied
service `postgresql` carries the literal allow-list denial reason in its
`message` field. -/
theorem route_denied_response_contains_reason :
    isServiceAllowed agentConfigServices "postgresql" = false ∧
      (serviceControlRoute agentConfigServices "restart" "postgresql" "req"
          (fun _ => ExecResult.ok "" "")).response.message =
        some "Service 'postgresql' is not allowed to be controlled" := by
  refine ⟨by decide, by decide⟩

/-- Claim C7 (amended): for every allow-list-denied request through the
generic route, the `error` field is the generic `Failed to <action> service
<service>`, but the `message` field contains the literal denial reason
naming the service, and the status is 500. -/
theorem route_denied_leaks_reason (cfg : AgentServicesConfig)
    (action service requestId : String) (exec : String → ExecResult)
    (hact : routeAllowedActions.contains action = true)
    (hdeny : isServiceAllowed cfg service = false) :
    (serviceControlRoute cfg action service requestId exec).response.message =
        some ("Service '" ++ service ++ "' is not allowed to be controlled") ∧
      (serviceControlRoute cfg action service requestId exec).response.error =
        some ("Failed to " ++ action ++ " service " ++ service) ∧
      (serviceControlRoute cfg action service requestId exec).response.status = 500 := by
  unfold serviceControlRoute
  rw [hact]
  unfold executeSystemCtl
  rw [hdeny]
  exact ⟨rfl, rfl, rfl⟩

/-- Witness for the amended C7 at a concrete input. -/
theorem route_denied_leaks_reason_witness :
    (serviceControlRoute agentConfigServices "restart" "postgresql" "req"
        (fun _ => ExecResult.ok "" "")).response.message =
        some ("Service '" ++ "postgresql" ++ "' is not allowed to be controlled") ∧
      (serviceControlRoute agentConfigServices "restart" "postgresql" "req"
        (fun _ => ExecResult.ok "" "")).response.error =
        some ("Failed to " ++ "restart" ++ " service " ++ "postgresql") ∧
      (serviceControlRoute agentConfigServices "restart" "postgresql" "req"
        (fun _ => ExecResult.ok "" "")).response.status = 500 :=
  route_denied_leaks_reason agentConfigServices "restart" "postgresql" "req"
    (fun _ => ExecResult.ok "" "") (by decide) (by decide)

/-- Claim C10: `getServiceStatus` never propagates a failure — it returns
`success:false` with the fixed `parsed` fallback — and `getAllServicesStatus`
keys one entry per configured controllable service, each alias entry carrying
its declared candidate list and an `activeServices` sublist of it. -/
theorem getServiceStatus_total_and_getAll_shape (cfg : AgentServicesConfig)
    (serviceName requestId : String) (exec : String → ExecResult) :
    (∀ msg, (executeSystemCtl cfg "status" serviceName requestId exec).result =
        Except.error msg →
      (getServiceStatus cfg serviceName requestId exec).success = false ∧
        (getServiceStatus cfg serviceName requestId exec).errorMessage = some msg ∧
        (getServiceStatus cfg serviceName requestId exec).parsed =
          { active := false, enabled := false, status := "not-found" }) ∧
    ((getAllServicesStatus cfg requestId exec).services.map Prod.fst =
      cfg.controllable) ∧
    (∀ p ∈ cfg.aliases, ∃ info,
      (p.1, info) ∈ (getAllServicesStatus cfg requestId exec).aliases ∧
        info.services = p.2 ∧ info.activeServices.Sublist p.2) := by
  refine ⟨?_, ?_, ?_⟩
  · intro msg hmsg
    unfold getServiceStatus
    rw [hmsg]
    exact ⟨rfl, rfl, rfl⟩
  · unfold getAllServicesStatus
    dsimp only
    rw [List.map_map]
    exact List.map_id'' (fun x => rfl) _
  · intro p hp
    refine ⟨_, List.mem_map_of_mem _ hp, rfl, List.filter_sublist _⟩

/-- Witness for C10 at a concrete input: an oracle whose every command
fails. -/
theorem getServiceStatus_total_and_getAll_shape_witness :
    ((getServiceStatus agentConfigServices "nginx" "req"
        (fun _ => ExecResult.err "boom")).success = false ∧
      (getServiceStatus agentConfigServices "nginx" "req"
        (fun _ => ExecResult.err "boom")).errorMessage = some "boom" ∧
      (getServiceStatus agentConfigServices "nginx" "req"
        (fun _ => ExecResult.err "boom")).parsed =
        { active := false, enabled := false, status := "not-found" }) ∧
    ((getAllServicesStatus agentConfigServices "req"
        (fun _ => ExecResult.err "boom")).services.map Prod.fst =
      agentConfigServices.controllable) ∧
    (∃ info, (("database", ["mysql", "mariadb"]).1, info) ∈
        (getAllServicesStatus agentConfigServices "req"
          (fun _ => ExecResult.err "boom")).aliases ∧
      info.services = ("database", ["mysql", "mariadb"]).2 ∧
      info.activeServices.Sublist ("database", ["mysql", "mariadb"]).2) := by
  have h := getServiceStatus_total_and_getAll_shape agentConfigServices "nginx"
    "req" (fun _ => ExecResult.err "boom")
  have h2 := getServiceStatus_total_and_getAll_shape agentConfigServices "x"
    "req" (fun _ => ExecResult.err "boom")
  exact ⟨h.1 "boom" (by decide), h2.2.1,
    h2.2.2 ("database", ["mysql", "mariadb"]) (by decide)⟩
